import Mathlib

/-!
Verification development for the BangaloreWeather repository
(`scripts/fetch_imd_combined.py` and `scripts/fetch_imd_bengaluru.py`).

Python strings are modelled as `List Char` (ASCII inputs); the library
boundaries (`requests`, BeautifulSoup, `json`) are modelled as abstract
values supplied by the environment, while every line of repository logic
is translated directly.
-/

namespace BangaloreWeather

/-- Python strings, modelled as lists of characters. -/
abbrev PyStr := List Char

/-- ASCII whitespace, as recognised by Python's `\s`, `str.strip()` and
`str.split()` (the inputs considered here are ASCII). -/
def isPySpace (c : Char) : Bool :=
  c = ' ' || c = '\t' || c = '\n' || c = '\r' || c = Char.ofNat 11 || c = Char.ofNat 12

/-- `str.strip()`: remove leading and trailing whitespace. -/
def pyStrip (s : PyStr) : PyStr :=
  ((s.dropWhile isPySpace).reverse.dropWhile isPySpace).reverse

/-- Helper for `pySplitWs`: accumulate the current (reversed) word. -/
def pySplitAux : PyStr → PyStr → List PyStr
  | [], cur => if cur.isEmpty then [] else [cur.reverse]
  | c :: cs, cur =>
    if isPySpace c then
      if cur.isEmpty then pySplitAux cs [] else cur.reverse :: pySplitAux cs []
    else pySplitAux cs (c :: cur)

/-- `str.split()` with no argument: split on whitespace runs, no empty parts. -/
def pySplitWs (s : PyStr) : List PyStr := pySplitAux s []

/-- Helper for `collapseWs`; the flag records whether the previous character
was part of a whitespace run already emitted as a single space. -/
def collapseWsAux : PyStr → Bool → PyStr
  | [], _ => []
  | c :: cs, inRun =>
    if isPySpace c then
      if inRun then collapseWsAux cs true else ' ' :: collapseWsAux cs true
    else c :: collapseWsAux cs false

/-- Python `re.sub(r"\s+", " ", s)`: replace each maximal whitespace run by a
single space (leading/trailing runs included, no stripping). -/
def collapseWs (s : PyStr) : PyStr := collapseWsAux s false

/-- ASCII `str.lower()` on one character. -/
def asciiLower (c : Char) : Char :=
  if 'A' ≤ c && c ≤ 'Z' then Char.ofNat (c.toNat + 32) else c

/-- ASCII `str.lower()`. -/
def pyLower (s : PyStr) : PyStr := s.map asciiLower

/-- Alphabetic character, as matched by the regex class `[A-Za-z]`. -/
def isAsciiAlpha (c : Char) : Bool :=
  ('A' ≤ c && c ≤ 'Z') || ('a' ≤ c && c ≤ 'z')

/-- Helper for `alphaTokens`: accumulate the current (reversed) token. -/
def alphaTokensAux : PyStr → PyStr → List PyStr
  | [], cur => if cur.isEmpty then [] else [cur.reverse]
  | c :: cs, cur =>
    if isAsciiAlpha c then alphaTokensAux cs (c :: cur)
    else if cur.isEmpty then alphaTokensAux cs [] else cur.reverse :: alphaTokensAux cs []

/-- Python `re.findall(r"[A-Za-z]{1,}", s)`: the maximal alphabetic runs. -/
def alphaTokens (s : PyStr) : List PyStr := alphaTokensAux s []

/-- Does `needle` occur at the head of the second list? -/
def headMatches : PyStr → PyStr → Bool
  | [], _ => true
  | _ :: _, [] => false
  | a :: as, b :: bs => a == b && headMatches as bs

/-- Python substring test `needle in hay`. -/
def containsSub (needle : PyStr) : PyStr → Bool
  | [] => needle.isEmpty
  | c :: cs => headMatches needle (c :: cs) || containsSub needle cs

/-- `KEYWORDS` from `fetch_imd_combined.py`, line 21. -/
def KEYWORDS : List PyStr :=
  ["warning".data, "watch".data, "nowcast".data, "thunderstorm".data, "thunder".data,
   "heavy rain".data, "heavy rainfall".data, "alert".data, "advisory".data, "likely".data,
   "possible".data, "isolated".data, "severe".data, "squall".data, "gust".data]

/-- `contains_keywords` from `fetch_imd_combined.py`, lines 88–90:
lowercase the paragraph, then test each keyword as a substring. -/
def contains_keywords (paragraph : PyStr) : Bool :=
  KEYWORDS.any (fun k => containsSub k (pyLower paragraph))

/-- `is_nav_like` from `fetch_imd_combined.py`, lines 73–86.  The Python
float test `short_words / max(1, len(words)) > 0.55` is rendered as the
exact rational comparison `55 * max 1 n < 100 * short`; for the guarded
range `len(words) < 40` the two agree on every input (the nearest rational
to 11/20 with denominator ≤ 39 is farther from it than any double-rounding
error). -/
def is_nav_like (paragraph : PyStr) : Bool :=
  if paragraph.length < 40 then true
  else
    let words := pySplitWs paragraph
    let short_words := (words.filter (fun w => decide (w.length ≤ 3))).length
    if decide (words.length < 40) && decide (55 * max 1 words.length < 100 * short_words) then
      true
    else
      let tokens := alphaTokens paragraph
      if !tokens.isEmpty && tokens.all (fun t => decide (t.length ≤ 4))
          && decide (tokens.length < 30) then
        true
      else false

/-- The per-paragraph normalisation of `pick_warnings`, line 96:
`re.sub(r"\s+", " ", p).strip()`. -/
def normalizeBlock (p : PyStr) : PyStr := pyStrip (collapseWs p)

/-- The block-level candidate list built by the first loop of
`pick_warnings` (`fetch_imd_combined.py`, lines 93–100). -/
def blockCandidates (paragraphs : List PyStr) : List PyStr :=
  paragraphs.filterMap (fun p0 =>
    let p := normalizeBlock p0
    if is_nav_like p then none
    else if contains_keywords p && decide (40 ≤ p.length) then some p
    else none)

/-- The dedup-and-cap loop of `pick_warnings`, lines 102–108: `seen` is the
set of already-emitted entries (identical to membership in `out`). -/
def dedupCapAux : List PyStr → List PyStr → List PyStr
  | [], out => out
  | c :: cs, out =>
    if c ∈ out then dedupCapAux cs out
    else
      let out2 := out ++ [c]
      if 8 ≤ out2.length then out2 else dedupCapAux cs out2

/-- Is the most recently read character (head of the reversed current chunk)
one of the sentence-ending characters `.?!`? -/
def punctHead : PyStr → Bool
  | [] => false
  | p :: _ => p = '.' || p = '?' || p = '!'

/-- Helper for `splitSentences`: `cur` is the reversed chunk being built;
`skipping` means we are consuming the whitespace run of a split match. -/
def splitSentAux : PyStr → PyStr → Bool → List PyStr
  | [], cur, _ => [cur.reverse]
  | c :: cs, cur, skipping =>
    if skipping && isPySpace c then splitSentAux cs cur true
    else if skipping then splitSentAux cs [c] false
    else if isPySpace c && punctHead cur then cur.reverse :: splitSentAux cs [] true
    else splitSentAux cs (c :: cur) false

/-- Python `re.split(r"(?<=[.?!])\s+", text)`: split at each maximal
whitespace run immediately preceded by `.`, `?` or `!`. -/
def splitSentences (text : PyStr) : List PyStr := splitSentAux text [] false

/-- The sentence-level fallback loop of `pick_warnings`, lines 113–121.
Note that the cap test `if len(found) >= 8: break` runs at the end of every
non-`continue` iteration. -/
def sentenceLoop : List PyStr → List PyStr → List PyStr
  | [], found => found
  | s0 :: rest, found =>
    let s := pyStrip s0
    if s.length < 40 then sentenceLoop rest found
    else
      let found2 :=
        if contains_keywords s then
          let cleaned := collapseWs s
          if cleaned ∈ found then found else found ++ [cleaned]
        else found
      if 8 ≤ found2.length then found2 else sentenceLoop rest found2

/-- `pick_warnings` from `fetch_imd_combined.py`, lines 92–122. -/
def pick_warnings (paragraphs : List PyStr) : List PyStr :=
  let candidates := blockCandidates paragraphs
  if !candidates.isEmpty then
    dedupCapAux candidates []
  else
    let text := List.intercalate "\n\n".data paragraphs
    let sentences := splitSentences text
    sentenceLoop sentences []

/-! ### Specification-side descriptions of the selection pipeline

These definitions follow the spec's words (dedup by exact equality keeping
the first occurrence, cap at 8, sentence pass with only the length and
keyword filters); the claim theorems compare `pick_warnings` against them. -/

/-- Keep the first occurrence of each string; `seen` is the list of strings
already emitted. -/
def dedupFirstAux : List PyStr → List PyStr → List PyStr
  | [], _ => []
  | c :: cs, seen =>
    if c ∈ seen then dedupFirstAux cs seen
    else c :: dedupFirstAux cs (seen ++ [c])

/-- Deduplicate by exact string equality, preserving first occurrences. -/
def dedupFirst (l : List PyStr) : List PyStr := dedupFirstAux l []

/-- The sentence-level filter of the fallback pass: only the length filter
(stripped length at least 40) and the keyword filter; no token-density
noise filters. -/
def sentenceQualifies (s0 : PyStr) : Bool :=
  if (pyStrip s0).length < 40 then false else contains_keywords (pyStrip s0)

/-- The normalisation applied to a fallback sentence before it is emitted:
strip, then collapse internal whitespace. -/
def cleanOf (s0 : PyStr) : PyStr := collapseWs (pyStrip s0)

/-- The qualifying, cleaned sentences of the fallback pass, in order. -/
def cleanedSentences (paragraphs : List PyStr) : List PyStr :=
  ((splitSentences (List.intercalate "\n\n".data paragraphs)).filter sentenceQualifies).map
    cleanOf

/-- The list of surviving candidates that feeds dedup-and-cap: the
block-level candidates when at least one exists, otherwise the cleaned
qualifying sentences of the fallback pass. -/
def pickSurvivors (paragraphs : List PyStr) : List PyStr :=
  if (blockCandidates paragraphs).isEmpty then cleanedSentences paragraphs
  else blockCandidates paragraphs

/-! ### Content Extractor, `fetch_imd_combined.py` lines 56–71

BeautifulSoup is modelled at its interface: after the noisy elements are
decomposed, a document answers `select_one` queries with an optional
region, and a region yields the `get_text(" ", strip=True)` texts of its
`p`/`div`/`li`/`h2`/`h3` elements in document order.  A text is kept
exactly when it is non-empty after stripping, matching the comprehension's
`if p.get_text(strip=True)` guard. -/

/-- A matched content region: the block-element texts inside it. -/
structure HtmlRegion where
  blockTexts : List PyStr

/-- An HTML document after removal of script/style/nav/header/footer/form/
noscript/iframe/aside/svg/canvas elements. -/
structure HtmlDoc where
  selectOne : PyStr → Option HtmlRegion
  allBlockTexts : List PyStr

/-- The selector priority list, `fetch_imd_combined.py` line 62. -/
def SELECTORS : List PyStr :=
  ["main".data, "article".data, "section".data, "#content".data, ".content".data]

/-- The selector loop of `extract_visible_paragraphs`: a matched region is
used only when it yields at least one non-empty paragraph (`if paras:`),
otherwise the loop continues with the next selector. -/
def extractLoop (doc : HtmlDoc) : List PyStr → List PyStr
  | [] => doc.allBlockTexts.filter (fun t => !t.isEmpty)
  | sel :: rest =>
    match doc.selectOne sel with
    | none => extractLoop doc rest
    | some el =>
      let paras := el.blockTexts.filter (fun t => !t.isEmpty)
      if !paras.isEmpty then paras else extractLoop doc rest

/-- `extract_visible_paragraphs` from `fetch_imd_combined.py`, lines 56–71. -/
def extract_visible_paragraphs (doc : HtmlDoc) : List PyStr :=
  extractLoop doc SELECTORS

/-- The first matching region, regardless of how much qualifying text it
contains — the region the claim says is always used. -/
def firstMatch (doc : HtmlDoc) : List PyStr → Option HtmlRegion
  | [] => none
  | sel :: rest =>
    match doc.selectOne sel with
    | some el => some el
    | none => firstMatch doc rest

/-- The Content Extractor as the claim states it: extract from the first
region that matches, never falling through to a later selector. -/
def extractClaimSpec (doc : HtmlDoc) : List PyStr :=
  match firstMatch doc SELECTORS with
  | some el => el.blockTexts.filter (fun t => !t.isEmpty)
  | none => doc.allBlockTexts.filter (fun t => !t.isEmpty)

/-- The first selector whose matching region yields at least one non-empty
block, together with those blocks (the amended description). -/
def firstNonEmptyMatch (doc : HtmlDoc) : List PyStr → Option (List PyStr)
  | [] => none
  | sel :: rest =>
    match doc.selectOne sel with
    | some el =>
      let paras := el.blockTexts.filter (fun t => !t.isEmpty)
      if !paras.isEmpty then some paras else firstNonEmptyMatch doc rest
    | none => firstNonEmptyMatch doc rest

/-- The amended Content Extractor contract for `fetch_imd_combined.py`. -/
def extractAmendedCombined (doc : HtmlDoc) : List PyStr :=
  match firstNonEmptyMatch doc SELECTORS with
  | some paras => paras
  | none => doc.allBlockTexts.filter (fun t => !t.isEmpty)

/-! ### Content Extractor, `fetch_imd_bengaluru.py` lines 137–154

Here a matched region contributes its whole `get_text("\n", strip=True)`
string, used only when longer than 50 characters; the fallback is the body
text truncated to 20000 characters. -/

/-- `fetch_imd_bengaluru.py`'s document model: `selectText sel` is the text
of the region matched by `sel` (after decomposing noisy elements), and
`bodyText` the text of `soup.body` when a body exists. -/
structure HtmlDocB where
  selectText : PyStr → Option PyStr
  bodyText : Option PyStr

/-- The selector priority list, `fetch_imd_bengaluru.py` line 143. -/
def SELECTORS_B : List PyStr :=
  ["main".data, "article".data, "section".data, "#content".data, ".content".data,
   ".article".data]

/-- The selector loop of `extract_text_from_html`: a matched region is used
only when its text is longer than 50 characters (`if len(txt) > 50`). -/
def extractTextLoop (doc : HtmlDocB) : List PyStr → PyStr
  | [] =>
    match doc.bodyText with
    | some t => t.take 20000
    | none => []
  | sel :: rest =>
    match doc.selectText sel with
    | some t => if 50 < t.length then t else extractTextLoop doc rest
    | none => extractTextLoop doc rest

/-- `extract_text_from_html` from `fetch_imd_bengaluru.py`, lines 137–154. -/
def extract_text_from_html (doc : HtmlDocB) : PyStr :=
  extractTextLoop doc SELECTORS_B

/-- The first selector whose matched text is longer than 50 characters
(amended description for the bengaluru variant). -/
def firstLongMatch (doc : HtmlDocB) : List PyStr → Option PyStr
  | [] => none
  | sel :: rest =>
    match doc.selectText sel with
    | some t => if 50 < t.length then some t else firstLongMatch doc rest
    | none => firstLongMatch doc rest

/-- The amended Content Extractor contract for `fetch_imd_bengaluru.py`. -/
def extractAmendedB (doc : HtmlDocB) : PyStr :=
  match firstLongMatch doc SELECTORS_B with
  | some t => t
  | none =>
    match doc.bodyText with
    | some t => t.take 20000
    | none => []

/-! ### Fetcher, `fetch_imd_combined.py` lines 26–44 and
`fetch_imd_bengaluru.py` lines 51–80

Each attempt of `requests.get` either raises a request exception or
returns a status code.  In the source, every non-2xx path reaches the
shared sleep-and-retry tail of the loop body: the `HTTPError` raised for
401/429 (combined) or 429 (bengaluru), and the one raised by
`raise_for_status()` for the remaining 4xx codes, are caught by the
enclosing `except` clause (`except Exception` resp.
`except requests.exceptions.RequestException`, of which `HTTPError` is a
subclass); 5xx falls through via `pass`, and 3xx because
`raise_for_status()` does not raise below 400. -/

/-- `MAX_RETRIES` in both scripts. -/
def MAX_RETRIES : Nat := 3

/-- Outcome of one `requests.get` call. -/
inductive AttemptOutcome where
  | exn
  | status (code : Nat)

/-- How a fetch ends: a response returned from some attempt, or
`SystemExit` after the loop. -/
inductive FetchOutcome where
  | success (attempt : Nat)
  | systemExit

/-- Observable trace of one `fetch_with_retries` call: the `time.sleep`
durations performed, the final outcome, and the number of attempts made. -/
structure FetchTrace where
  sleeps : List Nat
  outcome : FetchOutcome
  attemptsMade : Nat

/-- Does the attempt return a 2xx response (`200 <= status < 300`)? -/
def attemptSucceeds : AttemptOutcome → Bool
  | .status c => decide (200 ≤ c) && decide (c < 300)
  | .exn => false

/-- The retry loop shared by both scripts: on every non-2xx attempt, sleep
`backoff` seconds and double it whenever attempts remain. -/
def fetchAux (outcomes : Nat → AttemptOutcome) :
    Nat → Nat → Nat → List Nat → FetchTrace
  | 0, attempt, _, sleeps => ⟨sleeps, .systemExit, attempt - 1⟩
  | fuel + 1, attempt, backoff, sleeps =>
    if attemptSucceeds (outcomes attempt) then ⟨sleeps, .success attempt, attempt⟩
    else if attempt < MAX_RETRIES then
      fetchAux outcomes fuel (attempt + 1) (backoff * 2) (sleeps ++ [backoff])
    else fetchAux outcomes fuel (attempt + 1) backoff sleeps

/-- `fetch_with_retries` from `fetch_imd_combined.py` (initial backoff 2). -/
def fetch_with_retries (outcomes : Nat → AttemptOutcome) : FetchTrace :=
  fetchAux outcomes MAX_RETRIES 1 2 []

/-- `fetch_with_retries` from `fetch_imd_bengaluru.py`
(`INITIAL_BACKOFF = 3`). -/
def fetch_with_retries_bengaluru (outcomes : Nat → AttemptOutcome) : FetchTrace :=
  fetchAux outcomes MAX_RETRIES 1 3 []

/-! ### Snapshot writer, `fetch_imd_combined.py` lines 124–142 and
`fetch_imd_bengaluru.py` lines 156–177

Parsed JSON values are modelled by `Json` (numbers as integers — none of
the compared behaviour depends on float formatting; Python dicts preserve
insertion order, so an object carries its key/value pairs as a list).
`json.dumps(x, sort_keys=True, ensure_ascii=False)` serialises with the
keys of every object in sorted order, which is rendered here as plain
serialisation after recursively sorting all keys. -/

/-- A parsed JSON value. -/
inductive Json where
  | null
  | bool (b : Bool)
  | num (n : Int)
  | str (s : List Char)
  | arr (xs : List Json)
  | obj (kvs : List (List Char × Json))

/-- Lexicographic order on strings by code point, as used by Python's
`sorted` on `str` keys. -/
def keyLt : List Char → List Char → Bool
  | [], [] => false
  | [], _ :: _ => true
  | _ :: _, [] => false
  | a :: as, b :: bs =>
    if a.toNat < b.toNat then true
    else if b.toNat < a.toNat then false
    else keyLt as bs

/-- Stable insertion into a key-sorted pair list: the new pair goes after
every existing pair whose key is strictly smaller. -/
def insertPair (x : List Char × Json) :
    List (List Char × Json) → List (List Char × Json)
  | [] => [x]
  | y :: ys => if keyLt y.1 x.1 then y :: insertPair x ys else x :: y :: ys

/-- Stable insertion sort of an object's pairs by key. -/
def sortPairs : List (List Char × Json) → List (List Char × Json)
  | [] => []
  | x :: xs => insertPair x (sortPairs xs)

/-- Recursively sort the keys of every object. -/
def sortKeys : Json → Json
  | .null => .null
  | .bool b => .bool b
  | .num n => .num n
  | .str s => .str s
  | .arr xs => .arr (xs.attach.map (fun x => sortKeys x.1))
  | .obj kvs => .obj (sortPairs (kvs.attach.map (fun kv => (kv.1.1, sortKeys kv.1.2))))
termination_by j => sizeOf j
decreasing_by
  all_goals simp_wf
  · have h := List.sizeOf_lt_of_mem x.2
    omega
  · have h := List.sizeOf_lt_of_mem kv.2
    have h2 : sizeOf kv.1.2 < sizeOf kv.1 := by
      obtain ⟨⟨k, v⟩, m⟩ := kv
      simp
    omega

/-- Hexadecimal digit, lowercase, as in Python's `\u00xx` escapes. -/
def hexDigit (n : Nat) : Char :=
  if n < 10 then Char.ofNat (48 + n) else Char.ofNat (87 + n)

/-- JSON string escaping as performed by `json.dumps` with
`ensure_ascii=False`. -/
def escapeChar (c : Char) : List Char :=
  if c = '"' then ['\\', '"']
  else if c = '\\' then ['\\', '\\']
  else if c = '\n' then ['\\', 'n']
  else if c = '\t' then ['\\', 't']
  else if c = '\r' then ['\\', 'r']
  else if c.toNat = 8 then ['\\', 'b']
  else if c.toNat = 12 then ['\\', 'f']
  else if c.toNat < 32 then ['\\', 'u', '0', '0', hexDigit (c.toNat / 16), hexDigit (c.toNat % 16)]
  else [c]

/-- Escape a whole string body. -/
def escapeStr (s : List Char) : List Char := (s.map escapeChar).flatten

/-- Serialise in the stored key order, with `json.dumps`'s default
separators `", "` and `": "`.  (The braces are written via `Char.ofNat`:
123 is the opening and 125 the closing curly brace.) -/
def dumpRaw : Json → List Char
  | .null => "null".data
  | .bool b => if b then "true".data else "false".data
  | .num n => (toString n).data
  | .str s => '"' :: (escapeStr s ++ ['"'])
  | .arr xs =>
    '[' :: (List.intercalate ", ".data (xs.attach.map (fun x => dumpRaw x.1)) ++ [']'])
  | .obj kvs =>
    Char.ofNat 123 ::
      (List.intercalate ", ".data
        (kvs.attach.map (fun kv =>
          '"' :: (escapeStr kv.1.1 ++ ['"'] ++ ": ".data ++ dumpRaw kv.1.2)))
        ++ [Char.ofNat 125])
termination_by j => sizeOf j
decreasing_by
  all_goals simp_wf
  · have h := List.sizeOf_lt_of_mem x.2
    omega
  · have h := List.sizeOf_lt_of_mem kv.2
    have h2 : sizeOf kv.1.2 < sizeOf kv.1 := by
      obtain ⟨⟨k, v⟩, m⟩ := kv
      simp
    omega

/-- `json.dumps(x, sort_keys=True, ensure_ascii=False)`: canonical
serialisation with sorted keys. -/
def canonDumps (j : Json) : List Char := dumpRaw (sortKeys j)

/-- Structural equality of parsed JSON values, independent of object key
order: the values agree after every object's keys are sorted. -/
def structEq (a b : Json) : Prop := sortKeys a = sortKeys b

/-- State of the `imd.json` file: `none` when `os.path.exists` is false;
`some (.error ())` when the file exists but `json.load` raises;
`some (.ok j)` when it parses to `j`. -/
abbrev FileState := Option (Except Unit Json)

/-- `load_existing` from `fetch_imd_combined.py`, lines 124–131 (and
`load_existing_imd` from `fetch_imd_bengaluru.py`, lines 156–163): return
the parsed snapshot, or `None` when the file is absent or any exception is
raised while reading or parsing it. -/
def load_existing (fs : FileState) : Option Json :=
  match fs with
  | none => none
  | some (.error _) => none
  | some (.ok j) => some j

/-- `save_if_changed` from `fetch_imd_combined.py`, lines 133–142 (and
`fetch_imd_bengaluru.py`, lines 165–177): skip the write and return
`False` when an existing snapshot parses and its canonical serialisation
equals the payload's; otherwise overwrite the file with the payload and
return `True`.  The returned pair is (return value, resulting file
state). -/
def save_if_changed (fs : FileState) (payload : Json) : Bool × FileState :=
  match load_existing fs with
  | some existing =>
    if canonDumps existing = canonDumps payload then (false, fs)
    else (true, some (.ok payload))
  | none => (true, some (.ok payload))

/-! ### Concrete example inputs and a counting helper -/

/-- A concrete document on which the claimed first-match contract and the
code disagree: the `main` region matches but contains no qualifying text,
and the `article` region holds the content. -/
def c2Doc : HtmlDoc where
  selectOne := fun sel =>
    if sel = "main".data then some ⟨[]⟩
    else if sel = "article".data then
      some ⟨["Heavy rainfall likely over the city".data]⟩
    else none
  allBlockTexts := []

/-- Counterexample input for C3: every alphabetic token has length 4 and
there are 8 of them, yet the block reaches the output through the
sentence-level fallback pass. -/
def c3CexBlock : PyStr := "gust gust gust gust gust gust gust gust.".data

/-- Witness input for the amended C3. -/
def c3WitBlock : PyStr := "Home Map Rain Info News Site Help Data Gov in".data

/-- Counterexample input for C4: a 7-character block. -/
def c4CexShort : PyStr := "gust x.".data

/-- A 41-character companion block whose whitespace-collapsed form equals
`c4CexShort`. -/
def c4CexLong : PyStr := "gust".data ++ List.replicate 35 ' ' ++ "x.".data

/-- The spec's example warning paragraph, used as a witness input. -/
def exThunder : PyStr :=
  "Thunderstorm with gusty winds likely over interior Karnataka during the next 24 hours.".data

/-- Nine distinct qualifying blocks for the C6 counterexample. -/
def c6b1 : PyStr := "Heavy rain likely over zone A01 in the city.".data

def c6b2 : PyStr := "Heavy rain likely over zone A02 in the city.".data

def c6b3 : PyStr := "Heavy rain likely over zone A03 in the city.".data

def c6b4 : PyStr := "Heavy rain likely over zone A04 in the city.".data

def c6b5 : PyStr := "Heavy rain likely over zone A05 in the city.".data

def c6b6 : PyStr := "Heavy rain likely over zone A06 in the city.".data

def c6b7 : PyStr := "Heavy rain likely over zone A07 in the city.".data

def c6b8 : PyStr := "Heavy rain likely over zone A08 in the city.".data

def c6b9 : PyStr := "Heavy rain likely over zone A09 in the city.".data

/-- Ten blocks: nine distinct qualifying ones and a duplicate of the
ninth. -/
def c6List : List PyStr := [c6b1, c6b2, c6b3, c6b4, c6b5, c6b6, c6b7, c6b8, c6b9, c6b9]

/-- Counterexample input for C7 (distinct from `c3CexBlock` by case). -/
def c7CexBlock : PyStr := "Gust gust gust gust gust gust gust gust.".data

/-- Number of occurrences of `x` in a list of strings. -/
def countOcc (x : PyStr) : List PyStr → Nat
  | [] => 0
  | y :: ys => (if y = x then 1 else 0) + countOcc x ys

/-- Concrete existing snapshot and payload for the C9 witness: the parsed
contents are structurally equal but with the object keys in a different
order. -/
def c9Existing : Json := Json.obj [(['b'], Json.num 1), (['a'], Json.null)]

/-- The C9 witness payload (same content as `c9Existing`, keys swapped). -/
def c9Payload : Json := Json.obj [(['a'], Json.null), (['b'], Json.num 1)]

/-! ### Helper lemmas for the extractor loops -/

lemma extractLoop_eq_firstNonEmptyMatch (doc : HtmlDoc) (sels : List PyStr) :
    extractLoop doc sels =
      match firstNonEmptyMatch doc sels with
      | some paras => paras
      | none => doc.allBlockTexts.filter (fun t => !t.isEmpty) := by
  induction sels with
  | nil => rfl
  | cons sel rest ih =>
    simp only [extractLoop, firstNonEmptyMatch]
    cases doc.selectOne sel with
    | none => exact ih
    | some el =>
      by_cases h : (el.blockTexts.filter (fun t => !t.isEmpty)).isEmpty
      · simp [h, ih]
      · simp [h]

lemma extractTextLoop_eq_firstLongMatch (doc : HtmlDocB) (sels : List PyStr) :
    extractTextLoop doc sels =
      match firstLongMatch doc sels with
      | some t => t
      | none =>
        match doc.bodyText with
        | some t => t.take 20000
        | none => [] := by
  induction sels with
  | nil => rfl
  | cons sel rest ih =>
    simp only [extractTextLoop, firstLongMatch]
    cases doc.selectText sel with
    | none => exact ih
    | some t =>
      by_cases h : 50 < t.length
      · simp [h]
      · simp only [if_neg h]
        exact ih

/-- Claim C2, counterexample: on `c2Doc` the first matching selector is
`main`, whose region yields no qualifying text, so the claimed behaviour
produces `[]`; the code falls through to `article` and returns its
paragraph, so the two differ. -/
theorem c2_counterexample :
    c2Doc.selectOne "main".data = some ⟨[]⟩ ∧
    extractClaimSpec c2Doc = [] ∧
    extract_visible_paragraphs c2Doc =
      ["Heavy rainfall likely over the city".data] :=
  ⟨rfl, rfl, rfl⟩

/-- Claim C2 (amended): the Content Extractor tries the content-region
selectors in fixed priority order and extracts from the first matching
region that yields qualifying text — at least one non-empty block in
`fetch_imd_combined.py`, more than 50 characters of text in
`fetch_imd_bengaluru.py`; a matching region without qualifying text falls
through to later selectors (and ultimately to the whole-document
fallback), and regions are never merged. -/
theorem c2_first_qualifying_region_wins :
    (∀ doc : HtmlDoc, extract_visible_paragraphs doc = extractAmendedCombined doc) ∧
    (∀ doc : HtmlDocB, extract_text_from_html doc = extractAmendedB doc) := by
  constructor
  · intro doc
    exact extractLoop_eq_firstNonEmptyMatch doc SELECTORS
  · intro doc
    exact extractTextLoop_eq_firstLongMatch doc SELECTORS_B

/-! ### Claim C1: behaviour of the fetch loop on 429/401 -/

/-- Claim C1, evaluation at the failing input: when every attempt returns
status 429 (resp. 401), both fetch loops catch the `HTTPError` they raised,
sleep the exponential backoff (2 s then 4 s in `fetch_imd_combined.py`,
3 s then 6 s in `fetch_imd_bengaluru.py`), use all three attempts and only
then raise `SystemExit` — instead of aborting on the first attempt with no
retry and no sleep, as the claim (and the code's own comments) state. -/
theorem c1_429_is_retried_not_aborted :
    fetch_with_retries (fun _ => .status 429) =
      ⟨[2, 4], .systemExit, 3⟩ ∧
    fetch_with_retries_bengaluru (fun _ => .status 429) =
      ⟨[3, 6], .systemExit, 3⟩ ∧
    fetch_with_retries (fun _ => .status 401) =
      ⟨[2, 4], .systemExit, 3⟩ :=
  ⟨rfl, rfl, rfl⟩

/-! ### Helper lemmas for the selection pipeline -/

lemma dedupFirstAux_sublist : ∀ l seen : List PyStr, List.Sublist (dedupFirstAux l seen) l := by
  intro l
  induction l with
  | nil => intro seen; simp [dedupFirstAux]
  | cons c cs ih =>
    intro seen
    simp only [dedupFirstAux]
    by_cases h : c ∈ seen
    · rw [if_pos h]
      exact (ih seen).cons c
    · rw [if_neg h]
      exact (ih (seen ++ [c])).cons₂ c

lemma dedupFirstAux_not_mem_seen :
    ∀ l seen : List PyStr, ∀ x ∈ dedupFirstAux l seen, x ∉ seen := by
  intro l
  induction l with
  | nil => intro seen x hx; simp [dedupFirstAux] at hx
  | cons c cs ih =>
    intro seen x hx
    simp only [dedupFirstAux] at hx
    by_cases h : c ∈ seen
    · rw [if_pos h] at hx
      exact ih seen x hx
    · rw [if_neg h] at hx
      rcases List.mem_cons.mp hx with rfl | hx2
      · exact h
      · intro hxseen
        exact ih (seen ++ [c]) x hx2 (List.mem_append_left [c] hxseen)

lemma dedupFirstAux_nodup : ∀ l seen : List PyStr, (dedupFirstAux l seen).Nodup := by
  intro l
  induction l with
  | nil => intro seen; simp [dedupFirstAux]
  | cons c cs ih =>
    intro seen
    simp only [dedupFirstAux]
    by_cases h : c ∈ seen
    · rw [if_pos h]
      exact ih seen
    · rw [if_neg h]
      refine List.nodup_cons.mpr ⟨?_, ih (seen ++ [c])⟩
      intro hc
      exact dedupFirstAux_not_mem_seen cs (seen ++ [c]) c hc
        (List.mem_append_right seen (List.mem_singleton.mpr rfl))

lemma dedupCapAux_eq :
    ∀ cs out : List PyStr, out.length < 8 →
      dedupCapAux cs out = out ++ (dedupFirstAux cs out).take (8 - out.length) := by
  intro cs
  induction cs with
  | nil => intro out h; simp [dedupCapAux, dedupFirstAux]
  | cons c cs ih =>
    intro out h
    simp only [dedupCapAux, dedupFirstAux]
    by_cases hc : c ∈ out
    · rw [if_pos hc, if_pos hc, ih out h]
    · rw [if_neg hc, if_neg hc]
      by_cases h8 : 8 ≤ (out ++ [c]).length
      · rw [if_pos h8]
        have hlen : 8 - out.length = 1 := by
          simp only [List.length_append, List.length_singleton] at h8
          omega
        rw [hlen, List.take_succ_cons, List.take_zero]
      · rw [if_neg h8]
        have hlt : (out ++ [c]).length < 8 := by omega
        rw [ih (out ++ [c]) hlt]
        have hlen : 8 - out.length = (8 - (out ++ [c]).length) + 1 := by
          simp only [List.length_append, List.length_singleton]
          omega
        rw [hlen, List.take_succ_cons, List.append_assoc]
        rfl

lemma sentenceLoop_eq :
    ∀ sents found : List PyStr, found.length < 8 →
      sentenceLoop sents found =
        found ++
          (dedupFirstAux ((sents.filter sentenceQualifies).map cleanOf) found).take
            (8 - found.length) := by
  intro sents
  induction sents with
  | nil => intro found h; simp [sentenceLoop, dedupFirstAux]
  | cons s rest ih =>
    intro found h
    simp only [sentenceLoop, List.filter_cons]
    by_cases hlen : (pyStrip s).length < 40
    · have hq : sentenceQualifies s = false := by
        simp [sentenceQualifies, hlen]
      rw [if_pos hlen, hq]
      simpa using ih found h
    · have hkwsplit : sentenceQualifies s = contains_keywords (pyStrip s) := by
        simp [sentenceQualifies, hlen]
      rw [if_neg hlen]
      by_cases hkw : contains_keywords (pyStrip s) = true
      · rw [if_pos hkw, if_pos (hkwsplit.trans hkw)]
        simp only [List.map_cons, cleanOf, dedupFirstAux]
        by_cases hmem : collapseWs (pyStrip s) ∈ found
        · rw [if_pos hmem, if_pos hmem, if_neg (by omega : ¬ 8 ≤ found.length)]
          exact ih found h
        · rw [if_neg hmem, if_neg hmem]
          by_cases h8 : 8 ≤ (found ++ [collapseWs (pyStrip s)]).length
          · rw [if_pos h8]
            have hlen1 : 8 - found.length = 1 := by
              simp only [List.length_append, List.length_singleton] at h8
              omega
            rw [hlen1, List.take_succ_cons, List.take_zero]
          · rw [if_neg h8]
            have hlt : (found ++ [collapseWs (pyStrip s)]).length < 8 := by omega
            rw [ih (found ++ [collapseWs (pyStrip s)]) hlt]
            have hlen1 : 8 - found.length =
                (8 - (found ++ [collapseWs (pyStrip s)]).length) + 1 := by
              simp only [List.length_append, List.length_singleton]
              omega
            rw [hlen1, List.take_succ_cons, List.append_assoc]
            rfl
      · have hq : ¬ sentenceQualifies s = true := fun hq => hkw (hkwsplit.symm.trans hq)
        rw [if_neg hkw, if_neg hq, if_neg (by omega : ¬ 8 ≤ found.length)]
        exact ih found h

/-- Global shape of `pick_warnings`: dedup (keeping first occurrences) of
the surviving candidate list, capped at 8. -/
lemma pick_warnings_def (paragraphs : List PyStr) :
    pick_warnings paragraphs =
      if (!(blockCandidates paragraphs).isEmpty) = true then
        dedupCapAux (blockCandidates paragraphs) []
      else
        sentenceLoop (splitSentences (List.intercalate "\n\n".data paragraphs)) [] := rfl

lemma pick_warnings_eq (paragraphs : List PyStr) :
    pick_warnings paragraphs = (dedupFirst (pickSurvivors paragraphs)).take 8 := by
  rw [pick_warnings_def]
  unfold pickSurvivors dedupFirst
  by_cases h : (blockCandidates paragraphs).isEmpty
  · rw [if_neg (by simp [h]), if_pos h, sentenceLoop_eq _ [] (by norm_num)]
    simp [cleanedSentences]
  · have hb : (blockCandidates paragraphs).isEmpty = false := by
      simpa using h
    rw [if_pos (by simp [hb]), if_neg h, dedupCapAux_eq _ [] (by norm_num)]
    simp

/-- What membership in the block-level candidate list guarantees. -/
lemma mem_blockCandidates {x : PyStr} {paragraphs : List PyStr}
    (h : x ∈ blockCandidates paragraphs) :
    is_nav_like x = false ∧ contains_keywords x = true ∧ 40 ≤ x.length ∧
      ∃ p ∈ paragraphs, x = normalizeBlock p := by
  rcases List.mem_filterMap.mp h with ⟨p, hp, heq⟩
  simp only at heq
  by_cases h1 : is_nav_like (normalizeBlock p)
  · rw [if_pos h1] at heq
    exact absurd heq (by simp)
  · rw [if_neg h1] at heq
    by_cases h2 : (contains_keywords (normalizeBlock p) && decide (40 ≤ (normalizeBlock p).length)) = true
    · rw [if_pos h2] at heq
      have hx : normalizeBlock p = x := by
        simpa using heq
      subst hx
      have h2a : contains_keywords (normalizeBlock p) = true ∧
          40 ≤ (normalizeBlock p).length := by
        simpa using h2
      exact ⟨by simpa using h1, h2a.1, h2a.2, ⟨p, hp, rfl⟩⟩
    · rw [if_neg h2] at heq
      exact absurd heq (by simp)

/-- Membership in the cleaned fallback sentences. -/
lemma mem_cleanedSentences {x : PyStr} {paragraphs : List PyStr}
    (h : x ∈ cleanedSentences paragraphs) :
    ∃ s ∈ splitSentences (List.intercalate "\n\n".data paragraphs),
      sentenceQualifies s = true ∧ x = cleanOf s := by
  rcases List.mem_map.mp h with ⟨s, hs, hx⟩
  rcases List.mem_filter.mp hs with ⟨hs1, hs2⟩
  exact ⟨s, hs1, hs2, hx.symm⟩

/-- Everything `pick_warnings` returns comes from the surviving candidate
list. -/
lemma pick_warnings_subset {x : PyStr} {paragraphs : List PyStr}
    (h : x ∈ pick_warnings paragraphs) : x ∈ pickSurvivors paragraphs := by
  rw [pick_warnings_eq] at h
  exact (dedupFirstAux_sublist _ []).subset ((List.take_sublist 8 _).subset h)

/-- Zeta-expanded form of `is_nav_like`. -/
lemma is_nav_like_def (p : PyStr) :
    is_nav_like p =
      if p.length < 40 then true
      else if decide ((pySplitWs p).length < 40) &&
          decide (55 * max 1 (pySplitWs p).length <
            100 * ((pySplitWs p).filter (fun w => decide (w.length ≤ 3))).length) then
        true
      else if !(alphaTokens p).isEmpty && (alphaTokens p).all (fun t => decide (t.length ≤ 4))
          && decide ((alphaTokens p).length < 30) then
        true
      else false := rfl

/-! ### Claim C3: the all-short-token filter -/

/-- Claim C3, counterexample: `c3CexBlock` satisfies the claim's hypothesis
(all alphabetic tokens of length at most 4, fewer than 30 of them), yet
`pick_warnings` returns it: the block-level pass rejects it as noise, but
since no block survives, the sentence-level fallback re-admits the very
same text, so it is not excluded from the warnings output. -/
theorem c3_counterexample :
    (alphaTokens c3CexBlock ≠ [] ∧
      (∀ t ∈ alphaTokens c3CexBlock, t.length ≤ 4) ∧
      (alphaTokens c3CexBlock).length < 30) ∧
    pick_warnings [c3CexBlock] = [c3CexBlock] :=
  ⟨⟨by decide, by decide, by decide⟩, by decide⟩

/-- Claim C3 (amended): for every text block with at least one alphabetic
token, in which every alphabetic token has length at most 4 and there are
fewer than 30 such tokens, `is_nav_like` classifies the block as noise and
the block-level pass never makes it a candidate, regardless of keyword
content; it can still reach the output through the sentence-level fallback,
and a block with zero alphabetic tokens is not caught by this filter. -/
theorem c3_all_short_tokens_rejected (p : PyStr)
    (h1 : alphaTokens p ≠ [])
    (h2 : ∀ t ∈ alphaTokens p, t.length ≤ 4)
    (h3 : (alphaTokens p).length < 30) :
    is_nav_like p = true ∧ ∀ paragraphs, p ∉ blockCandidates paragraphs := by
  have e1 : (alphaTokens p).isEmpty = false := by
    simpa [List.isEmpty_iff] using h1
  have e2 : (alphaTokens p).all (fun t => decide (t.length ≤ 4)) = true := by
    rw [List.all_eq_true]
    intro t ht
    exact decide_eq_true (h2 t ht)
  have hcond : (!(alphaTokens p).isEmpty && (alphaTokens p).all (fun t => decide (t.length ≤ 4))
      && decide ((alphaTokens p).length < 30)) = true := by
    simp only [Bool.and_eq_true]
    exact ⟨⟨by simp [e1], e2⟩, decide_eq_true h3⟩
  have hnav : is_nav_like p = true := by
    rw [is_nav_like_def]
    by_cases ha : p.length < 40
    · rw [if_pos ha]
    · rw [if_neg ha]
      by_cases hb : (decide ((pySplitWs p).length < 40) &&
          decide (55 * max 1 (pySplitWs p).length <
            100 * ((pySplitWs p).filter (fun w => decide (w.length ≤ 3))).length)) = true
      · rw [if_pos hb]
      · rw [if_neg hb, if_pos hcond]
  refine ⟨hnav, ?_⟩
  intro paragraphs hp
  have hfalse := (mem_blockCandidates hp).1
  simp [hnav] at hfalse

/-- Witness for the amended C3 at a concrete navigation-like block. -/
theorem c3_all_short_tokens_rejected_witness :
    (alphaTokens c3WitBlock ≠ [] ∧
      (∀ t ∈ alphaTokens c3WitBlock, t.length ≤ 4) ∧
      (alphaTokens c3WitBlock).length < 30) ∧
    is_nav_like c3WitBlock = true :=
  ⟨⟨by decide, by decide, by decide⟩,
    (c3_all_short_tokens_rejected c3WitBlock (by decide) (by decide) (by decide)).1⟩

/-! ### Claim C4: texts shorter than 40 characters -/

/-- Claim C4, counterexample: the 7-character input text `"gust x."` appears
as a standalone entry of the output.  Both blocks are rejected at block
level, so the fallback pass runs on the joined text; the second sentence is
41 characters long, passes the length filter, and its whitespace-collapsed
form is exactly the short input text. -/
theorem c4_counterexample :
    c4CexShort.length < 40 ∧
    pick_warnings [c4CexShort, c4CexLong] = [c4CexShort] :=
  ⟨by decide, by decide⟩

/-- Claim C4 (amended): every output entry descends from a processed text
of length at least 40 — a normalized block of length at least 40, or a
fallback sentence whose stripped form has length at least 40.  Texts
shorter than 40 characters are themselves never selected at their
processing point; however, the whitespace-collapsed form of a longer
sentence that is emitted may coincide with a short input text. -/
theorem c4_short_inputs_not_selected (paragraphs : List PyStr) (e : PyStr)
    (h : e ∈ pick_warnings paragraphs) :
    40 ≤ e.length ∨
      ∃ s ∈ splitSentences (List.intercalate "\n\n".data paragraphs),
        40 ≤ (pyStrip s).length ∧ e = cleanOf s := by
  have hs := pick_warnings_subset h
  unfold pickSurvivors at hs
  by_cases hb : (blockCandidates paragraphs).isEmpty
  · rw [if_pos hb] at hs
    rcases mem_cleanedSentences hs with ⟨s, hs1, hs2, hs3⟩
    refine Or.inr ⟨s, hs1, ?_, hs3⟩
    by_cases hlen : (pyStrip s).length < 40
    · simp [sentenceQualifies, hlen] at hs2
    · omega
  · rw [if_neg hb] at hs
    exact Or.inl (mem_blockCandidates hs).2.2.1

/-- Witness for the amended C4 at the spec's example paragraph. -/
theorem c4_short_inputs_not_selected_witness :
    exThunder ∈ pick_warnings [exThunder] ∧
    (40 ≤ exThunder.length ∨
      ∃ s ∈ splitSentences (List.intercalate "\n\n".data [exThunder]),
        40 ≤ (pyStrip s).length ∧ exThunder = cleanOf s) :=
  ⟨by decide, c4_short_inputs_not_selected [exThunder] exThunder (by decide)⟩

/-! ### Claim C5: the sentence-level fallback -/

/-- Claim C5: if zero candidates survive the block-level pass,
`pick_warnings` re-runs keyword matching at sentence granularity — it
splits the joined text on sentence-ending punctuation followed by
whitespace, applies only the length filter (stripped length at least 40)
and the case-insensitive keyword filter (`sentenceQualifies`; both
token-density noise filters are skipped), collapses whitespace, then
deduplicates keeping first occurrences and caps at 8; if at least one
block-level candidate exists, the sentence-level pass is not run and the
candidates are deduplicated and capped instead. -/
theorem c5_sentence_fallback_exactly_when_no_candidates (paragraphs : List PyStr) :
    (blockCandidates paragraphs = [] →
      pick_warnings paragraphs =
        (dedupFirst
          (((splitSentences (List.intercalate "\n\n".data paragraphs)).filter
            sentenceQualifies).map cleanOf)).take 8) ∧
    (blockCandidates paragraphs ≠ [] →
      pick_warnings paragraphs = (dedupFirst (blockCandidates paragraphs)).take 8) := by
  constructor
  · intro h
    rw [pick_warnings_eq]
    unfold pickSurvivors
    rw [if_pos (by simp [h])]
    rfl
  · intro h
    rw [pick_warnings_eq]
    unfold pickSurvivors
    rw [if_neg (by simp [List.isEmpty_iff, h])]

/-- Witness for C5: the fallback branch on the empty input, and the
candidate branch on the spec's example paragraph. -/
theorem c5_sentence_fallback_witness :
    (blockCandidates [] = [] ∧
      pick_warnings [] =
        (dedupFirst
          (((splitSentences (List.intercalate "\n\n".data ([] : List PyStr))).filter
            sentenceQualifies).map cleanOf)).take 8) ∧
    (blockCandidates [exThunder] ≠ [] ∧
      pick_warnings [exThunder] = (dedupFirst (blockCandidates [exThunder])).take 8) :=
  ⟨⟨by decide, (c5_sentence_fallback_exactly_when_no_candidates []).1 (by decide)⟩,
    ⟨by decide, (c5_sentence_fallback_exactly_when_no_candidates [exThunder]).2 (by decide)⟩⟩

/-! ### Claim C6: deduplication -/

/-- Claim C6, counterexample: the ninth candidate occurs twice among the
surviving candidates, but the output — capped at 8 before its first
occurrence is reached — contains it zero times, not exactly once. -/
theorem c6_counterexample :
    1 < countOcc c6b9 (blockCandidates c6List) ∧
    countOcc c6b9 (pick_warnings c6List) = 0 :=
  ⟨by decide, by decide⟩

lemma countOcc_eq_zero_of_not_mem {x : PyStr} :
    ∀ {l : List PyStr}, x ∉ l → countOcc x l = 0 := by
  intro l
  induction l with
  | nil => intro _; rfl
  | cons y ys ih =>
    intro h
    have hxy : ¬ y = x := fun hyx => h (hyx ▸ List.mem_cons_self y ys)
    simp only [countOcc, if_neg hxy, Nat.zero_add]
    exact ih (fun hx => h (List.mem_cons_of_mem y hx))

lemma countOcc_le_one_of_nodup {l : List PyStr} (h : l.Nodup) (x : PyStr) :
    countOcc x l ≤ 1 := by
  induction l with
  | nil => simp [countOcc]
  | cons y ys ih =>
    rcases List.nodup_cons.mp h with ⟨hy, hys⟩
    by_cases hxy : y = x
    · subst hxy
      simp [countOcc, countOcc_eq_zero_of_not_mem hy]
    · simp only [countOcc, if_neg hxy, Nat.zero_add]
      exact ih hys

/-- Claim C6 (amended): `pick_warnings` equals the surviving candidate list
deduplicated by exact string equality on the normalized text, keeping each
first occurrence in place, and then capped at 8 — so a text occurring more
than once among the surviving candidates appears at most once in the
output (exactly once precisely when its first occurrence lies within the
first 8 distinct survivors), and every output entry occurs exactly once. -/
theorem c6_dedup_keeps_first_occurrence (paragraphs : List PyStr) :
    pick_warnings paragraphs = (dedupFirst (pickSurvivors paragraphs)).take 8 ∧
    ∀ x : PyStr, countOcc x (pick_warnings paragraphs) ≤ 1 := by
  refine ⟨pick_warnings_eq paragraphs, ?_⟩
  have hnodup : (pick_warnings paragraphs).Nodup := by
    rw [pick_warnings_eq]
    exact (dedupFirstAux_nodup _ []).sublist (List.take_sublist 8 _)
  exact countOcc_le_one_of_nodup hnodup

/-! ### Claim C7: output is a subsequence of the survivors -/

/-- Claim C7, counterexample: on this input no normalized block passes the
noise and keyword filters (the candidate list is empty), yet the fallback
pass returns a non-empty warning list, which therefore is not a
subsequence of the passed blocks. -/
theorem c7_counterexample :
    blockCandidates [c7CexBlock] = [] ∧
    pick_warnings [c7CexBlock] = [c7CexBlock] ∧
    ¬ List.Sublist (pick_warnings [c7CexBlock]) (blockCandidates [c7CexBlock]) := by
  refine ⟨by decide, by decide, fun hsub => ?_⟩
  have h1 : blockCandidates [c7CexBlock] = [] := by decide
  rw [h1] at hsub
  have h2 : pick_warnings [c7CexBlock] = [] := List.sublist_nil.mp hsub
  have h3 : pick_warnings [c7CexBlock] = [c7CexBlock] := by decide
  rw [h3] at h2
  exact absurd h2 (by decide)

/-- Claim C7 (amended): the warning list is always a subsequence, in
first-seen order, of the surviving candidate list `pickSurvivors` — the
normalized blocks that passed both noise filters and the keyword filter
when at least one such block exists, and otherwise the cleaned qualifying
sentences of the fallback pass; entries are never reordered by any
relevance score. -/
theorem c7_output_subsequence_of_survivors (paragraphs : List PyStr) :
    List.Sublist (pick_warnings paragraphs) (pickSurvivors paragraphs) := by
  rw [pick_warnings_eq]
  exact (List.take_sublist 8 _).trans (dedupFirstAux_sublist _ [])

/-! ### Claim C8: the cap of 8 -/

/-- Claim C8: in both the block-level pass and the sentence-level fallback
pass, the warning list returned by `pick_warnings` has length at most 8
(the loops stop scanning as soon as the cap is reached). -/
theorem c8_output_capped_at_eight (paragraphs : List PyStr) :
    (pick_warnings paragraphs).length ≤ 8 := by
  rw [pick_warnings_eq]
  exact List.length_take_le 8 (dedupFirst (pickSurvivors paragraphs))

/-! ### Claims C9 and C10: the snapshot writer -/

lemma sortKeys_null : sortKeys Json.null = Json.null := by
  simp [sortKeys]

lemma sortKeys_bool (b : Bool) : sortKeys (Json.bool b) = Json.bool b := by
  simp [sortKeys]

lemma sortKeys_num (n : Int) : sortKeys (Json.num n) = Json.num n := by
  simp [sortKeys]

lemma sortKeys_str (s : List Char) : sortKeys (Json.str s) = Json.str s := by
  simp [sortKeys]

lemma sortKeys_arr (xs : List Json) :
    sortKeys (Json.arr xs) = Json.arr (xs.map sortKeys) := by
  simp only [sortKeys]
  exact congrArg Json.arr (List.attach_map_val xs sortKeys)

lemma sortKeys_obj (kvs : List (List Char × Json)) :
    sortKeys (Json.obj kvs) =
      Json.obj (sortPairs (kvs.map (fun kv => (kv.1, sortKeys kv.2)))) := by
  simp only [sortKeys]
  exact congrArg (fun l => Json.obj (sortPairs l))
    (List.attach_map_val kvs (fun kv => (kv.1, sortKeys kv.2)))

/-- Claim C9: `save_if_changed` skips the write (the file state is left
untouched) and returns `False` whenever the existing snapshot parses to a
value structurally equal (key-order independent) to the payload; it
returns `True` exactly when no prior snapshot is readable or the canonical
serialisations differ, and in that case the file is overwritten with the
payload. -/
theorem c9_save_unchanged_skips_write (fs : FileState) (payload : Json) :
    (∀ e, load_existing fs = some e → structEq e payload →
        save_if_changed fs payload = (false, fs)) ∧
    ((save_if_changed fs payload).1 = true ↔
      load_existing fs = none ∨
        ∃ e, load_existing fs = some e ∧ canonDumps e ≠ canonDumps payload) ∧
    ((save_if_changed fs payload).1 = true →
      (save_if_changed fs payload).2 = some (.ok payload)) := by
  rcases fs with _ | e
  · refine ⟨?_, ?_, ?_⟩
    · intro e he
      simp [load_existing] at he
    · simp [save_if_changed, load_existing]
    · intro _
      rfl
  · rcases e with u | j
    · refine ⟨?_, ?_, ?_⟩
      · intro e he
        simp [load_existing] at he
      · simp [save_if_changed, load_existing]
      · intro _
        rfl
    · by_cases hc : canonDumps j = canonDumps payload
      · refine ⟨?_, ?_, ?_⟩
        · intro e he hst
          simp [save_if_changed, load_existing, hc]
        · simp [save_if_changed, load_existing, hc]
        · intro habs
          simp [save_if_changed, load_existing, hc] at habs
      · refine ⟨?_, ?_, ?_⟩
        · intro e he hst
          have he2 : e = j := by
            have := by simpa [load_existing] using he
            exact this.symm
          subst he2
          have : canonDumps e = canonDumps payload := congrArg dumpRaw hst
          exact absurd this hc
        · simp [save_if_changed, load_existing, hc]
        · intro _
          simp [save_if_changed, load_existing, hc]

/-- Witness for C9: with a readable snapshot structurally equal to the
payload (same pairs, different key order), the write is skipped and
`False` is returned with the file untouched. -/
theorem c9_save_unchanged_skips_write_witness :
    structEq c9Existing c9Payload ∧
    save_if_changed (some (.ok c9Existing)) c9Payload =
      (false, some (.ok c9Existing)) := by
  have hst : structEq c9Existing c9Payload := by
    show sortKeys c9Existing = sortKeys c9Payload
    simp only [c9Existing, c9Payload, sortKeys_obj, sortKeys_num, sortKeys_null,
      List.map_cons, List.map_nil]
    rfl
  exact ⟨hst,
    (c9_save_unchanged_skips_write (some (.ok c9Existing)) c9Payload).1 c9Existing rfl hst⟩

/-- Claim C10: a present-but-unparseable snapshot file is treated exactly
like a missing one — `load_existing` returns `None` instead of raising, and
`save_if_changed` unconditionally overwrites the file with the payload and
returns `True`, just as it does when the file does not exist. -/
theorem c10_corrupt_snapshot_treated_as_missing (payload : Json) :
    load_existing (some (.error ())) = none ∧
    save_if_changed (some (.error ())) payload = (true, some (.ok payload)) ∧
    save_if_changed none payload = (true, some (.ok payload)) :=
  ⟨rfl, rfl, rfl⟩

end BangaloreWeather
